import Mathlib

/-!
Verification of the Slice-Stitch compositing engine.

Shallow embedding of the geometric core of `src/utils/canvasUtils.ts`
(`generateNineGrid`, `generateStitchedImage`, the shared `applyZoom`
snap-assist of the story editor) and of the two ratio-change handlers
(`canvasUtils.ts` StoryEditor select onChange, `LongImageStitcher.tsx`
select onChange).  JavaScript numbers are modelled as rationals; the one
irrational quantity (the safety-downscale factor `Math.sqrt(MAX_AREA /
currentArea)`) is modelled over the reals.  A 2D canvas context that only
ever receives `translate` and uniform `scale` commands is an affine map
`p ↦ t + s • p`, modelled by the structure `Ctx`.
-/

namespace SliceStitch

/-- Aspect-ratio choices of `types.ts` (`AspectRatio`). -/
inductive AspectRatio
  | original
  | r1x1
  | r4x3
  | r3x4
  | r16x9
  | r9x16
deriving DecidableEq

/-- The pair `[w, h] = ratio.split(':').map(Number)` for the five fixed
ratio strings.  The `original` case is never parsed by the source; it is
given a dummy value that no definition consults. -/
def ratioWH : AspectRatio → ℚ × ℚ
  | .original => (1, 1)
  | .r1x1 => (1, 1)
  | .r4x3 => (4, 3)
  | .r3x4 => (3, 4)
  | .r16x9 => (16, 9)
  | .r9x16 => (9, 16)

/-- A decoded raster with intrinsic size (`HTMLImageElement.width/height`). -/
structure Img where
  width : ℚ
  height : ℚ
deriving DecidableEq

/-- `CropArea` of `types.ts`: pan in UI pixels plus a zoom factor. -/
structure CropArea where
  x : ℚ
  y : ℚ
  scale : ℚ
deriving DecidableEq

/-- `StitchItem` of `types.ts` (the `file` handle is dropped; only the
fields the engine reads are kept). -/
structure StitchItem where
  id : String
  url : String
  ratio : AspectRatio
  scale : ℚ
  x : ℚ
  y : ℚ
deriving DecidableEq

/-- `StitchConfig` of `types.ts`. -/
structure StitchConfig where
  outerPadding : ℚ
  innerSpacing : ℚ
  backgroundColor : String
deriving DecidableEq

/-- JavaScript `v || d` on numbers (no NaN in the model): `0` is the only
falsy rational, so `0 || d = d` and `v || d = v` otherwise. -/
def jsOr (v d : ℚ) : ℚ :=
  if v = 0 then d else v

/-- A canvas 2D context restricted to the commands the engine issues:
`translate` and uniform `scale`.  It denotes the affine map
`p ↦ (tx + s * p.1, ty + s * p.2)`. -/
structure Ctx where
  s : ℚ
  tx : ℚ
  ty : ℚ
deriving DecidableEq

/-- The context before any transform command. -/
def Ctx.initial : Ctx :=
  ⟨1, 0, 0⟩

/-- `ctx.translate(dx, dy)`: pre-composes a translation. -/
def Ctx.translate (c : Ctx) (dx dy : ℚ) : Ctx :=
  ⟨c.s, c.tx + c.s * dx, c.ty + c.s * dy⟩

/-- `ctx.scale(k, k)`: pre-composes a uniform scale. -/
def Ctx.scaleBy (c : Ctx) (k : ℚ) : Ctx :=
  ⟨c.s * k, c.tx, c.ty⟩

/-- Where the context sends a point of drawing coordinates. -/
def Ctx.apply (c : Ctx) (p : ℚ × ℚ) : ℚ × ℚ :=
  (c.tx + c.s * p.1, c.ty + c.s * p.2)

/-- The cover-fit draw size shared by both pipelines
(`canvasUtils.ts` lines 49–61 against a square box and lines 194–207
against a slot): if the image is wider than the box it is
width-constrained (`drawH = boxH`, `drawW = drawH * imgAspect`),
otherwise height-constrained (`drawW = boxW`, `drawH = drawW / imgAspect`). -/
def coverFit (imgW imgH boxW boxH : ℚ) : ℚ × ℚ :=
  let imgAspect := imgW / imgH
  let boxAspect := boxW / boxH
  if imgAspect > boxAspect then (boxH * imgAspect, boxH)
  else (boxW, boxW / imgAspect)

/-- `containScale` of the spec's projection engine: the scale, relative to
cover = 1, at which the image is fully visible inside the slot. -/
def containScale (imgAspect slotAspect : ℚ) : ℚ :=
  if imgAspect > slotAspect then slotAspect / imgAspect
  else imgAspect / slotAspect

/-- The slot aspect used by the snap assist: the image's own aspect for
`original`, else `w / h` of the fixed ratio (`canvasUtils.ts` lines 658–662). -/
def slotAspectOf (imgAspect : ℚ) (ratio : AspectRatio) : ℚ :=
  if ratio = .original then imgAspect
  else (ratioWH ratio).1 / (ratioWH ratio).2

/-! ## Nine-grid pipeline (`generateNineGrid`, `canvasUtils.ts` lines 23–103) -/

/-- Cover-fit draw size of the nine-grid pipeline, written exactly as the
source (lines 51–61): the box is the `outputSize × outputSize` square, so
the branch test is `imgAspect > 1`. -/
def nineGridDraw (img : Img) (outputSize : ℚ) : ℚ × ℚ :=
  let imgAspect := img.width / img.height
  if imgAspect > 1 then (outputSize * imgAspect, outputSize)
  else (outputSize, outputSize / imgAspect)

/-- One output tile: the source rectangle copied out of the composite
canvas, and the tile's own square size. -/
structure Tile where
  sx : ℚ
  sy : ℚ
  w : ℚ
  h : ℚ
deriving DecidableEq

/-- The 3×3 partition loop (lines 78–100): row-major, `partSize` squares. -/
def nineGridTiles (partSize : ℚ) : List Tile :=
  (List.range 3).flatMap fun row =>
    (List.range 3).map fun col =>
      ⟨col * partSize, row * partSize, partSize, partSize⟩

/-- Everything `generateNineGrid` computes that the claims speak about:
the output size, the compositor transform, the cover-fit draw size and the
nine tiles. -/
structure NineGridResult where
  outputSize : ℚ
  ctx : Ctx
  drawW : ℚ
  drawH : ℚ
  tiles : List Tile
deriving DecidableEq

/-- `generateNineGrid(imageUrl, crop, uiContainerSize)`: `outputSize =
max(1080, min(img.width, img.height))`; `K = outputSize / uiContainerSize`;
transform order translate-to-center, translate by `crop * K`, scale by
`crop.scale`; then the row-major 3×3 slice of `outputSize / 3` squares. -/
def generateNineGrid (img : Img) (crop : CropArea) (uiContainerSize : ℚ) :
    NineGridResult :=
  let sourceMinDimension := min img.width img.height
  let outputSize := max 1080 sourceMinDimension
  let K := outputSize / uiContainerSize
  let d := nineGridDraw img outputSize
  let moveX := crop.x * K
  let moveY := crop.y * K
  let ctx :=
    (((Ctx.initial.translate (outputSize / 2) (outputSize / 2)).translate
        moveX moveY).scaleBy crop.scale)
  let partSize := outputSize / 3
  ⟨outputSize, ctx, d.1, d.2, nineGridTiles partSize⟩

/-! ## Vertical stitch pipeline (`generateStitchedImage`, lines 108–246) -/

/-- One element of the source's `drawData` array (lines 119–140). -/
structure DrawDatum where
  img : Img
  slotHeight : ℚ
  item : StitchItem
  spacing : ℚ
deriving DecidableEq

/-- Slot height of one item (lines 124–130): `contentWidth / imgAspect`
for `original`, else `contentWidth / (w / h)` of the parsed ratio. -/
def slotHeightOf (contentWidth : ℚ) (img : Img) (ratio : AspectRatio) : ℚ :=
  if ratio = .original then contentWidth / (img.width / img.height)
  else contentWidth / ((ratioWH ratio).1 / (ratioWH ratio).2)

/-- The `drawData` map: the source pairs each item with its loaded image,
its slot height and its trailing spacing, `innerSpacing` when
`index < items.length - 1` and `0` for the final item — i.e. `0` exactly
when the rest of the list is empty. -/
def drawDataOf (cfg : StitchConfig) (contentWidth : ℚ) :
    List (StitchItem × Img) → List DrawDatum
  | [] => []
  | (item, img) :: rest =>
      ⟨img, slotHeightOf contentWidth img item.ratio, item,
        if rest.isEmpty then 0 else cfg.innerSpacing⟩ ::
        drawDataOf cfg contentWidth rest

/-- `totalContentHeight` (line 143): `reduce((acc, d) => acc + d.slotHeight
+ d.spacing, 0)`. -/
def totalContentHeightOf (dd : List DrawDatum) : ℚ :=
  (dd.map fun d => d.slotHeight + d.spacing).sum

/-- `finalSpacing` (line 144): the last datum's spacing, `0` on empty. -/
def finalSpacingOf (dd : List DrawDatum) : ℚ :=
  match dd.getLast? with
  | some d => d.spacing
  | none => 0

/-- `totalHeight` (line 145). -/
def totalHeightOf (cfg : StitchConfig) (dd : List DrawDatum) : ℚ :=
  totalContentHeightOf dd - finalSpacingOf dd + cfg.outerPadding * 2

/-- The per-item compositor transform of the stitch pipeline, written in
the source's command order (lines 209–226): translate to the slot center,
scale by `item.scale || 1`, then translate by
`(item.x || 0) / 100 * drawW, (item.y || 0) / 100 * drawH`. -/
def stitchItemCtx (centerX centerY : ℚ) (item : StitchItem)
    (drawW drawH : ℚ) : Ctx :=
  let scale := jsOr item.scale 1
  let moveX := jsOr item.x 0 / 100 * drawW
  let moveY := jsOr item.y 0 / 100 * drawH
  (((Ctx.initial.translate centerX centerY).scaleBy scale).translate
    moveX moveY)

/-- One slot's draw command: the clip rectangle, the cover-fit draw size
and the accumulated transform under which the image is drawn at
`(-drawW/2, -drawH/2, drawW, drawH)`. -/
structure DrawCmd where
  slotX : ℚ
  slotY : ℚ
  slotW : ℚ
  slotH : ℚ
  drawW : ℚ
  drawH : ℚ
  ctx : Ctx
deriving DecidableEq

/-- The `drawData.forEach` loop (lines 177–234): slots advance from
`currentY = outerPadding` by `slotHeight + spacing`. -/
def drawCmdsOf (cfg : StitchConfig) (contentWidth : ℚ) :
    ℚ → List DrawDatum → List DrawCmd
  | _, [] => []
  | currentY, d :: rest =>
      let slotX := cfg.outerPadding
      let slotY := currentY
      let dr := coverFit d.img.width d.img.height contentWidth d.slotHeight
      let centerX := slotX + contentWidth / 2
      let centerY := slotY + d.slotHeight / 2
      ⟨slotX, slotY, contentWidth, d.slotHeight, dr.1, dr.2,
        stitchItemCtx centerX centerY d.item dr.1 dr.2⟩ ::
        drawCmdsOf cfg contentWidth (currentY + d.slotHeight + d.spacing) rest

/-- The logical output of `generateStitchedImage` before the physical
canvas is sized: content width, logical total height, and the draw
commands in item order. -/
structure StitchOutput where
  contentWidth : ℚ
  totalHeight : ℚ
  drawCmds : List DrawCmd
deriving DecidableEq

/-- `Promise.all(items.map(item => loadImage(item.url)))` (line 113):
all loads succeed positionally, or the whole batch fails. -/
def loadAllOf (load : String → Option Img) :
    List StitchItem → Option (List Img)
  | [] => some []
  | item :: rest =>
      match load item.url, loadAllOf load rest with
      | some img, some imgs => some (img :: imgs)
      | _, _ => none

/-- `generateStitchedImage(items, config, outputWidth)`, with image
decoding abstracted into `load`: `Promise.all` over the items' URLs fails
the whole call when any single load fails (before any canvas exists);
otherwise the layout and the per-item draw commands are computed. -/
def generateStitchedImage (load : String → Option Img)
    (items : List StitchItem) (cfg : StitchConfig) (outputWidth : ℚ) :
    Option StitchOutput :=
  match loadAllOf load items with
  | none => none
  | some loadedImages =>
      let contentWidth := outputWidth - cfg.outerPadding * 2
      let dd := drawDataOf cfg contentWidth (items.zip loadedImages)
      some ⟨contentWidth, totalHeightOf cfg dd,
        drawCmdsOf cfg contentWidth cfg.outerPadding dd⟩

/-! ## Safety downscale (lines 147–170) -/

/-- `MAX_AREA = 50 * 1000 * 1000` (line 150). -/
def MAX_AREA : ℚ :=
  50 * 1000 * 1000

/-- `finalScale` (lines 153–157): `1.0`, or `Math.sqrt(MAX_AREA /
currentArea)` when `currentArea > MAX_AREA`. -/
noncomputable def finalScale (outputWidth totalHeight : ℚ) : ℝ :=
  if MAX_AREA < outputWidth * totalHeight then
    Real.sqrt ((MAX_AREA : ℝ) / ((outputWidth : ℝ) * (totalHeight : ℝ)))
  else 1

/-- `canvas.width = Math.floor(outputWidth * finalScale)` (line 161). -/
noncomputable def canvasWidth (outputWidth totalHeight : ℚ) : ℤ :=
  ⌊(outputWidth : ℝ) * finalScale outputWidth totalHeight⌋

/-- `canvas.height = Math.floor(totalHeight * finalScale)` (line 162). -/
noncomputable def canvasHeight (outputWidth totalHeight : ℚ) : ℤ :=
  ⌊(totalHeight : ℝ) * finalScale outputWidth totalHeight⌋

/-! ## Snap-assist (`applyZoom`, `canvasUtils.ts` lines 649–698) -/

/-- The `contain` value `applyZoom` computes (lines 653–668): the stored
aspect falls back to `1.0` when falsy, the guard `if (imgAspect)` keeps
`contain = 1.0` for a falsy aspect, else `contain` is
`slotAspect / imgAspect` when `imgAspect > slotAspect` and
`imgAspect / slotAspect` otherwise. -/
def zoomContain (aspectRef : ℚ) (ratio : AspectRatio) : ℚ :=
  let imgAspect := jsOr aspectRef 1
  if imgAspect = 0 then 1
  else
    let slotAspect := slotAspectOf imgAspect ratio
    if imgAspect > slotAspect then slotAspect / imgAspect
    else imgAspect / slotAspect

/-- Result of one `applyZoom` call: the updated item, the snap flag, and
whether a haptic feedback pulse was emitted. -/
structure ZoomResult where
  item : StitchItem
  didSnap : Bool
  vibrated : Bool
deriving DecidableEq

/-- `applyZoom(item, delta)` (lines 649–698), with the aspect ref, the
clock and the debounce timestamp as explicit inputs:
`newScale = clamp(scale + delta, 0.01, 5.0)`; snap to `cover = 1` when
`|newScale - cover| < 0.05` and that distance is ≤ the distance to
`contain`, else to `contain` when `|newScale - contain| < 0.05`; a pulse
fires only on a snap that changes the scale by ≥ 0.0001 with ≥ 150ms since
the last pulse; a snap resets the pan to `(0, 0)`. -/
def applyZoom (aspectRef : ℚ) (item : StitchItem) (delta : ℚ)
    (now lastVibrateTime : ℚ) : ZoomResult :=
  let MIN_SCALE : ℚ := 1/100
  let MAX_SCALE : ℚ := 5
  let cover : ℚ := 1
  let contain := zoomContain aspectRef item.ratio
  let newScale := min (max MIN_SCALE (item.scale + delta)) MAX_SCALE
  let SNAP_THRESHOLD : ℚ := 5/100
  let distCover := |newScale - cover|
  let distContain := |newScale - contain|
  let snapped :=
    if distCover < SNAP_THRESHOLD ∧ distCover ≤ distContain then
      (cover, true)
    else if distContain < SNAP_THRESHOLD then (contain, true)
    else (newScale, false)
  let isSameScale : Bool := decide (|item.scale - snapped.1| < 1/10000)
  let vibrated : Bool :=
    snapped.2 && !isSameScale && decide (now - lastVibrateTime > 150)
  let newX := if snapped.2 then 0 else item.x
  let newY := if snapped.2 then 0 else item.y
  ⟨{ item with scale := snapped.1, x := newX, y := newY }, snapped.2,
    vibrated⟩

/-! ## Ratio-change handlers -/

/-- The StoryEditor ratio select onChange (`canvasUtils.ts` line 961):
`updateItem(item.id, { ratio, scale: 1, x: 0, y: 0 })`. -/
def storyEditorRatioChange (item : StitchItem) (r : AspectRatio) :
    StitchItem :=
  { item with ratio := r, scale := 1, x := 0, y := 0 }

/-- The LongImageStitcher ratio select onChange (`LongImageStitcher.tsx`
line 451): `updateSelectedItem({ ratio }, item.id)` — only the ratio
field is replaced. -/
def longStitcherRatioChange (item : StitchItem) (r : AspectRatio) :
    StitchItem :=
  { item with ratio := r }

/-! ## Theorems -/

/-- On a square box the nine-grid's inline branch test `imgAspect > 1`
agrees with the shared cover-fit computation. -/
theorem nineGridDraw_eq_coverFit (img : Img) (o : ℚ) (ho : 0 < o) :
    nineGridDraw img o = coverFit img.width img.height o o := by
  simp only [nineGridDraw, coverFit, div_self (ne_of_gt ho)]

/-- C6: for positive image and box sizes, the cover-fit computation used by
both pipelines never under-covers the box (`drawW ≥ boxW`, `drawH ≥ boxH`),
preserves the image aspect ratio (`drawW / drawH = imgW / imgH`), and takes
the width-constrained branch (`drawH = boxH`, `drawW = boxH * imgAspect`)
exactly when `imgAspect > boxAspect`; the nine-grid pipeline's inline
computation is this cover fit against its square box. -/
theorem coverFit_spec (imgW imgH boxW boxH : ℚ)
    (hiw : 0 < imgW) (hih : 0 < imgH) (hbw : 0 < boxW) (hbh : 0 < boxH) :
    boxW ≤ (coverFit imgW imgH boxW boxH).1 ∧
    boxH ≤ (coverFit imgW imgH boxW boxH).2 ∧
    (coverFit imgW imgH boxW boxH).1 / (coverFit imgW imgH boxW boxH).2
      = imgW / imgH ∧
    (imgW / imgH > boxW / boxH →
      coverFit imgW imgH boxW boxH = (boxH * (imgW / imgH), boxH)) ∧
    (¬ imgW / imgH > boxW / boxH →
      coverFit imgW imgH boxW boxH = (boxW, boxW / (imgW / imgH))) ∧
    (∀ o : ℚ, 0 < o → nineGridDraw ⟨imgW, imgH⟩ o = coverFit imgW imgH o o) := by
  have hA : 0 < imgW / imgH := div_pos hiw hih
  by_cases h : imgW / imgH > boxW / boxH
  · have hfit : coverFit imgW imgH boxW boxH = (boxH * (imgW / imgH), boxH) := by
      simp only [coverFit, if_pos h]
    refine ⟨?_, ?_, ?_, fun _ => hfit, fun hc => absurd h hc, ?_⟩
    · rw [hfit]
      show boxW ≤ boxH * (imgW / imgH)
      have hlt : boxW < boxH * (imgW / imgH) := by
        calc boxW < imgW / imgH * boxH := (div_lt_iff₀ hbh).mp h
          _ = boxH * (imgW / imgH) := mul_comm _ _
      exact le_of_lt hlt
    · rw [hfit]
    · rw [hfit]
      exact mul_div_cancel_left₀ _ (ne_of_gt hbh)
    · intro o ho
      exact nineGridDraw_eq_coverFit ⟨imgW, imgH⟩ o ho
  · have hle : imgW / imgH ≤ boxW / boxH := not_lt.mp h
    have hfit : coverFit imgW imgH boxW boxH = (boxW, boxW / (imgW / imgH)) := by
      simp only [coverFit, if_neg h]
    refine ⟨?_, ?_, ?_, fun hc => absurd hc h, fun _ => hfit, ?_⟩
    · rw [hfit]
    · rw [hfit]
      show boxH ≤ boxW / (imgW / imgH)
      rw [le_div_iff₀ hA]
      calc boxH * (imgW / imgH) ≤ boxH * (boxW / boxH) := by
            exact mul_le_mul_of_nonneg_left hle (le_of_lt hbh)
        _ = boxW := by field_simp
    · rw [hfit]
      have hbw0 : boxW ≠ 0 := ne_of_gt hbw
      have hA0 : imgW / imgH ≠ 0 := ne_of_gt hA
      show boxW / (boxW / (imgW / imgH)) = imgW / imgH
      field_simp
      ring
    · intro o ho
      exact nineGridDraw_eq_coverFit ⟨imgW, imgH⟩ o ho

/-- C6 witness: the cover-fit property at the concrete input
`imgW = 2, imgH = 1, boxW = 1, boxH = 1`. -/
theorem coverFit_spec_witness :
    (0 : ℚ) < 2 ∧ (0 : ℚ) < 1 ∧
    (1 ≤ (coverFit 2 1 1 1).1 ∧
     1 ≤ (coverFit 2 1 1 1).2 ∧
     (coverFit 2 1 1 1).1 / (coverFit 2 1 1 1).2 = 2 / 1 ∧
     ((2 : ℚ) / 1 > 1 / 1 → coverFit 2 1 1 1 = (1 * (2 / 1), 1)) ∧
     (¬ (2 : ℚ) / 1 > 1 / 1 → coverFit 2 1 1 1 = (1, 1 / (2 / 1))) ∧
     (∀ o : ℚ, 0 < o → nineGridDraw ⟨2, 1⟩ o = coverFit 2 1 o o)) :=
  ⟨by norm_num, by norm_num,
    coverFit_spec 2 1 1 1 (by norm_num) (by norm_num) (by norm_num)
      (by norm_num)⟩

/-- C2 counterexample: in the LongImageStitcher editor, changing the ratio
of an item with `scale = 2, x = 5, y = 7` does not yield
`scale = 1, x = 0, y = 0`. -/
theorem ratio_reset_cex :
    ¬ ((longStitcherRatioChange ⟨"a", "b", .original, 2, 5, 7⟩ .r1x1).scale = 1 ∧
       (longStitcherRatioChange ⟨"a", "b", .original, 2, 5, 7⟩ .r1x1).x = 0 ∧
       (longStitcherRatioChange ⟨"a", "b", .original, 2, 5, 7⟩ .r1x1).y = 0) := by
  simp only [longStitcherRatioChange]
  norm_num

/-- C2 amended: changing an item's ratio in the StoryEditor yields
`scale = 1, x = 0, y = 0` regardless of the prior transform, while the
LongImageStitcher's ratio handler replaces only the ratio and leaves
`scale`, `x` and `y` unchanged. -/
theorem ratio_change_amended (item : StitchItem) (r : AspectRatio) :
    ((storyEditorRatioChange item r).ratio = r ∧
     (storyEditorRatioChange item r).scale = 1 ∧
     (storyEditorRatioChange item r).x = 0 ∧
     (storyEditorRatioChange item r).y = 0) ∧
    ((longStitcherRatioChange item r).ratio = r ∧
     (longStitcherRatioChange item r).scale = item.scale ∧
     (longStitcherRatioChange item r).x = item.x ∧
     (longStitcherRatioChange item r).y = item.y) :=
  ⟨⟨rfl, rfl, rfl, rfl⟩, ⟨rfl, rfl, rfl, rfl⟩⟩

/-- C1 counterexample: a stitch item with `scale = 2, x = 10, y = 0` in a
100-wide single-slot layout is drawn with its center at `(70, 50)`, not at
slot-center plus pan `(60, 50)`: the stitch pipeline multiplies the pan by
the zoom factor. -/
theorem stitch_pan_scaled_cex :
    ((generateStitchedImage (fun _ => some ⟨100, 100⟩)
        [⟨"a", "u", .r1x1, 2, 10, 0⟩] ⟨0, 0, "#ffffff"⟩ 100).map
      fun out => out.drawCmds.map fun c => c.ctx.apply (0, 0))
      = some [(70, 50)] ∧
    ((70 : ℚ), (50 : ℚ)) ≠ (50 + 10, 50 + 0) := by
  constructor
  · simp only [generateStitchedImage, loadAllOf, drawDataOf, drawCmdsOf,
      slotHeightOf, coverFit, stitchItemCtx, jsOr, ratioWH, Ctx.initial,
      Ctx.translate, Ctx.scaleBy, Ctx.apply, List.zip, List.zipWith,
      List.isEmpty, Option.map_some, List.map_cons, List.map_nil]
    norm_num
  · norm_num [Prod.ext_iff]

/-- C1 amended: the nine-grid compositor applies translate-to-center, then
pan, then zoom, so the drawn image's center lands at region-center plus pan
with the pan not multiplied by the zoom; the stitch compositor instead
applies translate-to-center, then zoom, then pan, so the drawn center lands
at region-center plus zoom times pan. -/
theorem transform_order_amended (img : Img) (crop : CropArea)
    (uiContainerSize centerX centerY drawW drawH : ℚ) (item : StitchItem) :
    (generateNineGrid img crop uiContainerSize).ctx.apply (0, 0)
      = ((generateNineGrid img crop uiContainerSize).outputSize / 2
           + crop.x * ((generateNineGrid img crop uiContainerSize).outputSize
               / uiContainerSize),
         (generateNineGrid img crop uiContainerSize).outputSize / 2
           + crop.y * ((generateNineGrid img crop uiContainerSize).outputSize
               / uiContainerSize)) ∧
    (stitchItemCtx centerX centerY item drawW drawH).apply (0, 0)
      = (centerX + jsOr item.scale 1 * (jsOr item.x 0 / 100 * drawW),
         centerY + jsOr item.scale 1 * (jsOr item.y 0 / 100 * drawH)) := by
  constructor
  · simp only [generateNineGrid, Ctx.apply, Ctx.translate, Ctx.scaleBy,
      Ctx.initial, Prod.mk.injEq]
    constructor <;> ring
  · simp only [stitchItemCtx, Ctx.apply, Ctx.translate, Ctx.scaleBy,
      Ctx.initial, Prod.mk.injEq]
    constructor <;> ring

/-- The nine-grid slice loop yields its nine tiles explicitly. -/
theorem nineGridTiles_eq (p : ℚ) :
    nineGridTiles p =
      [⟨(0 : ℕ) * p, (0 : ℕ) * p, p, p⟩, ⟨(1 : ℕ) * p, (0 : ℕ) * p, p, p⟩,
       ⟨(2 : ℕ) * p, (0 : ℕ) * p, p, p⟩, ⟨(0 : ℕ) * p, (1 : ℕ) * p, p, p⟩,
       ⟨(1 : ℕ) * p, (1 : ℕ) * p, p, p⟩, ⟨(2 : ℕ) * p, (1 : ℕ) * p, p, p⟩,
       ⟨(0 : ℕ) * p, (2 : ℕ) * p, p, p⟩, ⟨(1 : ℕ) * p, (2 : ℕ) * p, p, p⟩,
       ⟨(2 : ℕ) * p, (2 : ℕ) * p, p, p⟩] := by
  simp [nineGridTiles, List.range_succ]

/-- C3: for every source image, `generateNineGrid` produces exactly 9 tiles
in row-major order (`index = row * 3 + col`), each a square of side
`outputSize / 3`, where `outputSize = max(1080, min(srcW, srcH))`. -/
theorem nineGrid_tiles_spec (img : Img) (crop : CropArea)
    (uiContainerSize : ℚ) :
    (generateNineGrid img crop uiContainerSize).outputSize
      = max 1080 (min img.width img.height) ∧
    (generateNineGrid img crop uiContainerSize).tiles.length = 9 ∧
    ∀ row col : ℕ, row < 3 → col < 3 →
      (generateNineGrid img crop uiContainerSize).tiles[row * 3 + col]?
        = some
            ⟨(col : ℚ)
                * ((generateNineGrid img crop uiContainerSize).outputSize / 3),
              (row : ℚ)
                * ((generateNineGrid img crop uiContainerSize).outputSize / 3),
              (generateNineGrid img crop uiContainerSize).outputSize / 3,
              (generateNineGrid img crop uiContainerSize).outputSize / 3⟩ := by
  refine ⟨rfl, ?_, ?_⟩
  · simp [generateNineGrid, nineGridTiles_eq]
  · intro row col hr hc
    interval_cases row <;> interval_cases col <;>
      simp [generateNineGrid, nineGridTiles_eq]

/-- The last datum's spacing is the last spacing of the tail. -/
theorem finalSpacingOf_cons (d : DrawDatum) (dd : List DrawDatum)
    (h : dd ≠ []) : finalSpacingOf (d :: dd) = finalSpacingOf dd := by
  cases dd with
  | nil => exact absurd rfl h
  | cons e rest => simp [finalSpacingOf]

/-- Peeling one datum off a non-final position adds its slot height and
its spacing to the total height. -/
theorem totalHeightOf_cons (cfg : StitchConfig) (d : DrawDatum)
    (dd : List DrawDatum) (h : dd ≠ []) :
    totalHeightOf cfg (d :: dd)
      = d.slotHeight + d.spacing + totalHeightOf cfg dd := by
  simp only [totalHeightOf, totalContentHeightOf, List.map_cons,
    List.sum_cons, finalSpacingOf_cons d dd h]
  ring

/-- C5: for a non-empty item list the logical total height is the sum of
the slot heights, plus `innerSpacing` for every item but the last, plus
`2 * outerPadding`; the slot height of an item is `contentWidth /
imgAspect` for ratio `original` and `contentWidth / (w / h)` for a fixed
ratio `w:h`. -/
theorem totalHeight_spec (cfg : StitchConfig) (contentWidth : ℚ)
    (pairs : List (StitchItem × Img)) (hne : pairs ≠ []) :
    totalHeightOf cfg (drawDataOf cfg contentWidth pairs)
      = (pairs.map fun p => slotHeightOf contentWidth p.2 p.1.ratio).sum
        + cfg.innerSpacing * ((pairs.length : ℚ) - 1)
        + cfg.outerPadding * 2 := by
  induction pairs with
  | nil => exact absurd rfl hne
  | cons p rest ih =>
    obtain ⟨item, img⟩ := p
    cases rest with
    | nil =>
      simp [drawDataOf, totalHeightOf, totalContentHeightOf, finalSpacingOf]
    | cons q rest2 =>
      have hddne : drawDataOf cfg contentWidth (q :: rest2) ≠ [] := by
        obtain ⟨qi, qg⟩ := q
        simp [drawDataOf]
      rw [show drawDataOf cfg contentWidth ((item, img) :: q :: rest2)
            = ⟨img, slotHeightOf contentWidth img item.ratio, item,
                cfg.innerSpacing⟩ :: drawDataOf cfg contentWidth (q :: rest2) by
          simp [drawDataOf]]
      rw [totalHeightOf_cons cfg _ _ hddne, ih (by simp)]
      simp only [List.map_cons, List.sum_cons, List.length_cons]
      push_cast
      ring

/-- C5 witness: the height accounting at the concrete input of two items
(slot heights 400 and 300 at content width 400), `innerSpacing = 10`,
`outerPadding = 20`: total height 400 + 10 + 300 + 40 = 750. -/
theorem totalHeight_spec_witness :
    ([((⟨"a", "u", .r1x1, 1, 0, 0⟩ : StitchItem), (⟨5, 5⟩ : Img)),
      ((⟨"b", "v", .r4x3, 1, 0, 0⟩ : StitchItem), (⟨5, 5⟩ : Img))]
        ≠ ([] : List (StitchItem × Img))) ∧
    totalHeightOf ⟨20, 10, "#ffffff"⟩
        (drawDataOf ⟨20, 10, "#ffffff"⟩ 400
          [((⟨"a", "u", .r1x1, 1, 0, 0⟩ : StitchItem), (⟨5, 5⟩ : Img)),
           ((⟨"b", "v", .r4x3, 1, 0, 0⟩ : StitchItem), (⟨5, 5⟩ : Img))])
      = (([((⟨"a", "u", .r1x1, 1, 0, 0⟩ : StitchItem), (⟨5, 5⟩ : Img)),
           ((⟨"b", "v", .r4x3, 1, 0, 0⟩ : StitchItem),
             (⟨5, 5⟩ : Img))]).map
              fun p => slotHeightOf 400 p.2 p.1.ratio).sum
          + (10 : ℚ)
            * ((([((⟨"a", "u", .r1x1, 1, 0, 0⟩ : StitchItem), (⟨5, 5⟩ : Img)),
                ((⟨"b", "v", .r4x3, 1, 0, 0⟩ : StitchItem),
                  (⟨5, 5⟩ : Img))]).length : ℚ) - 1)
          + (20 : ℚ) * 2 :=
  ⟨by simp,
    totalHeight_spec ⟨20, 10, "#ffffff"⟩ 400
      [((⟨"a", "u", .r1x1, 1, 0, 0⟩ : StitchItem), (⟨5, 5⟩ : Img)),
       ((⟨"b", "v", .r4x3, 1, 0, 0⟩ : StitchItem), (⟨5, 5⟩ : Img))]
      (by simp)⟩

/-- A single failed load fails the whole `Promise.all`. -/
theorem loadAllOf_eq_none (load : String → Option Img)
    (items : List StitchItem) (h : ∃ item ∈ items, load item.url = none) :
    loadAllOf load items = none := by
  induction items with
  | nil => simp at h
  | cons i rest ih =>
    obtain ⟨item, hmem, hnone⟩ := h
    rcases List.mem_cons.mp hmem with heq | hmem2
    · subst heq
      simp [loadAllOf, hnone]
    · cases hi : load i.url with
      | none => simp [loadAllOf, hi]
      | some img => simp [loadAllOf, hi, ih ⟨item, hmem2, hnone⟩]

/-- A successful `Promise.all` yields exactly one image per item. -/
theorem loadAllOf_length (load : String → Option Img) :
    ∀ (items : List StitchItem) (imgs : List Img),
      loadAllOf load items = some imgs → imgs.length = items.length := by
  intro items
  induction items with
  | nil =>
    intro imgs h
    simp [loadAllOf] at h
    simp [h.symm]
  | cons i rest ih =>
    intro imgs h
    cases hi : load i.url with
    | none => simp [loadAllOf, hi] at h
    | some img =>
      cases hrest : loadAllOf load rest with
      | none => simp [loadAllOf, hi, hrest] at h
      | some imgs2 =>
        simp [loadAllOf, hi, hrest] at h
        simp [h.symm, ih imgs2 hrest]

/-- `drawData` has one datum per item. -/
theorem drawDataOf_length (cfg : StitchConfig) (contentWidth : ℚ) :
    ∀ pairs : List (StitchItem × Img),
      (drawDataOf cfg contentWidth pairs).length = pairs.length := by
  intro pairs
  induction pairs with
  | nil => simp [drawDataOf]
  | cons p rest ih =>
    obtain ⟨item, img⟩ := p
    simp [drawDataOf, ih]

/-- The draw loop emits one command per datum. -/
theorem drawCmdsOf_length (cfg : StitchConfig) (contentWidth : ℚ) :
    ∀ (dd : List DrawDatum) (y : ℚ),
      (drawCmdsOf cfg contentWidth y dd).length = dd.length := by
  intro dd
  induction dd with
  | nil => intro y; simp [drawCmdsOf]
  | cons d rest ih => intro y; simp [drawCmdsOf, ih]

/-- C9: if any single item's image fails to load, the whole stitched
export fails with no output at all; and a successful output always draws
exactly one command per item, never a subset. -/
theorem stitch_fail_fast (load : String → Option Img)
    (items : List StitchItem) (cfg : StitchConfig) (outputWidth : ℚ) :
    ((∃ item ∈ items, load item.url = none) →
      generateStitchedImage load items cfg outputWidth = none) ∧
    (∀ out, generateStitchedImage load items cfg outputWidth = some out →
      out.drawCmds.length = items.length) := by
  constructor
  · intro h
    simp [generateStitchedImage, loadAllOf_eq_none load items h]
  · intro out hout
    cases hl : loadAllOf load items with
    | none =>
      rw [generateStitchedImage, hl] at hout
      exact absurd hout (by simp)
    | some imgs =>
      rw [generateStitchedImage, hl] at hout
      have hlen : imgs.length = items.length := loadAllOf_length load items imgs hl
      have : out.drawCmds.length
          = (items.zip imgs).length := by
        rw [← Option.some_inj.mp hout]
        simp [drawCmdsOf_length, drawDataOf_length]
      rw [this, List.length_zip, hlen, min_self]

/-- C4 counterexample: one `original`-ratio 1000×333 item at output width
1080 gives logical total height 8991/25 = 359.64 and an area under the
cap, so `finalScale = 1`; yet the physical canvas height
`Math.floor(totalHeight * finalScale) = 359` differs from the logical
height, so the physical size does not equal the logical size. -/
theorem physical_size_cex :
    totalHeightOf ⟨0, 0, "#ffffff"⟩
        (drawDataOf ⟨0, 0, "#ffffff"⟩ 1080
          [(⟨"a", "u", .original, 1, 0, 0⟩, ⟨1000, 333⟩)]) = 8991 / 25 ∧
    (1080 : ℚ) * (8991 / 25) ≤ MAX_AREA ∧
    finalScale 1080 (8991 / 25) = 1 ∧
    canvasHeight 1080 (8991 / 25) = 359 ∧
    ((canvasHeight 1080 (8991 / 25) : ℚ) ≠ 8991 / 25) := by
  have hfs : finalScale 1080 (8991 / 25) = 1 := by
    rw [finalScale, if_neg]
    norm_num [MAX_AREA]
  have hch : canvasHeight 1080 (8991 / 25) = 359 := by
    rw [canvasHeight, hfs, mul_one]
    rw [show ((8991 / 25 : ℚ) : ℝ) = (8991 / 25 : ℝ) by norm_num]
    norm_num [Int.floor_eq_iff]
  refine ⟨?_, ?_, hfs, hch, ?_⟩
  · norm_num [totalHeightOf, totalContentHeightOf, finalSpacingOf,
      drawDataOf, slotHeightOf]
  · norm_num [MAX_AREA]
  · rw [hch]
    norm_num

/-- C4 amended: when `area = outputWidth * totalHeight` is at most
`MAX_AREA`, `finalScale = 1` and the physical canvas is the floor of the
logical size (equal to it whenever the logical dimensions are integers);
when `area > MAX_AREA`, `finalScale = sqrt(MAX_AREA / area)`, the physical
canvas is `floor(outputWidth * finalScale) × floor(totalHeight *
finalScale)`, and its pixel area never exceeds 50,000,000. -/
theorem canvas_downscale_amended (outputWidth totalHeight : ℚ)
    (hW : 0 < outputWidth) (hH : 0 < totalHeight) :
    (outputWidth * totalHeight ≤ MAX_AREA →
      finalScale outputWidth totalHeight = 1 ∧
      canvasWidth outputWidth totalHeight = ⌊(outputWidth : ℝ)⌋ ∧
      canvasHeight outputWidth totalHeight = ⌊(totalHeight : ℝ)⌋) ∧
    (MAX_AREA < outputWidth * totalHeight →
      finalScale outputWidth totalHeight
        = Real.sqrt
            (((MAX_AREA : ℚ) : ℝ) / ((outputWidth : ℝ) * (totalHeight : ℝ))) ∧
      0 ≤ finalScale outputWidth totalHeight ∧
      finalScale outputWidth totalHeight ^ 2
          * ((outputWidth : ℝ) * (totalHeight : ℝ)) = ((MAX_AREA : ℚ) : ℝ) ∧
      canvasWidth outputWidth totalHeight
        = ⌊(outputWidth : ℝ) * finalScale outputWidth totalHeight⌋ ∧
      canvasHeight outputWidth totalHeight
        = ⌊(totalHeight : ℝ) * finalScale outputWidth totalHeight⌋ ∧
      canvasWidth outputWidth totalHeight
          * canvasHeight outputWidth totalHeight ≤ 50000000) := by
  constructor
  · intro h
    have hfs : finalScale outputWidth totalHeight = 1 := by
      rw [finalScale, if_neg (not_lt.mpr h)]
    exact ⟨hfs, by rw [canvasWidth, hfs, mul_one],
      by rw [canvasHeight, hfs, mul_one]⟩
  · intro h
    have hWr : (0 : ℝ) < (outputWidth : ℝ) := by exact_mod_cast hW
    have hHr : (0 : ℝ) < (totalHeight : ℝ) := by exact_mod_cast hH
    have harea : (0 : ℝ) < (outputWidth : ℝ) * (totalHeight : ℝ) :=
      mul_pos hWr hHr
    have hfs : finalScale outputWidth totalHeight
        = Real.sqrt
            (((MAX_AREA : ℚ) : ℝ) / ((outputWidth : ℝ) * (totalHeight : ℝ))) := by
      rw [finalScale, if_pos h]
    have hs0 : 0 ≤ finalScale outputWidth totalHeight := by
      rw [hfs]
      exact Real.sqrt_nonneg _
    have hmax0 : (0 : ℝ) ≤ ((MAX_AREA : ℚ) : ℝ) := by norm_num [MAX_AREA]
    have hsq : finalScale outputWidth totalHeight ^ 2
        * ((outputWidth : ℝ) * (totalHeight : ℝ)) = ((MAX_AREA : ℚ) : ℝ) := by
      rw [hfs, Real.sq_sqrt (div_nonneg hmax0 (le_of_lt harea))]
      field_simp
    refine ⟨hfs, hs0, hsq, rfl, rfl, ?_⟩
    set s := finalScale outputWidth totalHeight with hsdef
    have ha0 : (0 : ℝ) ≤ (outputWidth : ℝ) * s :=
      mul_nonneg (le_of_lt hWr) hs0
    have hb0 : (0 : ℝ) ≤ (totalHeight : ℝ) * s :=
      mul_nonneg (le_of_lt hHr) hs0
    have hfa : (0 : ℤ) ≤ ⌊(outputWidth : ℝ) * s⌋ := by
      rw [Int.le_floor]
      exact_mod_cast ha0
    have hfb : (0 : ℤ) ≤ ⌊(totalHeight : ℝ) * s⌋ := by
      rw [Int.le_floor]
      exact_mod_cast hb0
    have hprod : ((outputWidth : ℝ) * s) * ((totalHeight : ℝ) * s)
        = (50000000 : ℝ) := by
      have : ((outputWidth : ℝ) * s) * ((totalHeight : ℝ) * s)
          = s ^ 2 * ((outputWidth : ℝ) * (totalHeight : ℝ)) := by ring
      rw [this, hsq]
      norm_num [MAX_AREA]
    have hle : ((⌊(outputWidth : ℝ) * s⌋ : ℝ) * (⌊(totalHeight : ℝ) * s⌋ : ℝ))
        ≤ (50000000 : ℝ) := by
      rw [← hprod]
      exact mul_le_mul (Int.floor_le _) (Int.floor_le _)
        (by exact_mod_cast hfb) ha0
    rw [canvasWidth, canvasHeight, ← hsdef]
    exact_mod_cast hle

/-- C4 witness: the amended downscale property at the concrete input
`outputWidth = 20000, totalHeight = 10000` (area 2·10⁸ over the cap,
`finalScale = 1/2`). -/
theorem canvas_downscale_amended_witness :
    (0 : ℚ) < 20000 ∧ (0 : ℚ) < 10000 ∧
    (((20000 : ℚ) * 10000 ≤ MAX_AREA →
      finalScale 20000 10000 = 1 ∧
      canvasWidth 20000 10000 = ⌊((20000 : ℚ) : ℝ)⌋ ∧
      canvasHeight 20000 10000 = ⌊((10000 : ℚ) : ℝ)⌋) ∧
    (MAX_AREA < (20000 : ℚ) * 10000 →
      finalScale 20000 10000
        = Real.sqrt
            (((MAX_AREA : ℚ) : ℝ) / (((20000 : ℚ) : ℝ) * ((10000 : ℚ) : ℝ))) ∧
      0 ≤ finalScale 20000 10000 ∧
      finalScale 20000 10000 ^ 2
          * (((20000 : ℚ) : ℝ) * ((10000 : ℚ) : ℝ)) = ((MAX_AREA : ℚ) : ℝ) ∧
      canvasWidth 20000 10000
        = ⌊((20000 : ℚ) : ℝ) * finalScale 20000 10000⌋ ∧
      canvasHeight 20000 10000
        = ⌊((10000 : ℚ) : ℝ) * finalScale 20000 10000⌋ ∧
      canvasWidth 20000 10000 * canvasHeight 20000 10000 ≤ 50000000)) :=
  ⟨by norm_num, by norm_num,
    canvas_downscale_amended 20000 10000 (by norm_num) (by norm_num)⟩

/-- For a non-falsy aspect, `applyZoom`'s inline contain computation is
the projection engine's `containScale` against its slot aspect. -/
theorem zoomContain_eq (imgAspect : ℚ) (h : imgAspect ≠ 0)
    (ratio : AspectRatio) :
    zoomContain imgAspect ratio
      = containScale imgAspect (slotAspectOf imgAspect ratio) := by
  simp only [zoomContain, containScale, jsOr, if_neg h]

/-- C7: the snap assist clamps `newScale = clamp(scale + delta, 0.01, 5)`,
snaps it to cover = 1 when `|newScale - 1| < 0.05` and that distance is at
most the distance to contain, else snaps to `contain =
containScale(imgAspect, slotAspect)` when `|newScale - contain| < 0.05`,
resetting the pan to `(0, 0)` on any snap and keeping it otherwise. -/
theorem applyZoom_spec (imgAspect : ℚ) (hA : 0 < imgAspect)
    (item : StitchItem) (delta now lastVibrateTime : ℚ) :
    let newScale := min (max (1/100) (item.scale + delta)) 5
    let contain := containScale imgAspect (slotAspectOf imgAspect item.ratio)
    let r := applyZoom imgAspect item delta now lastVibrateTime
    (|newScale - 1| < 5/100 ∧ |newScale - 1| ≤ |newScale - contain| →
      r.item.scale = 1 ∧ r.item.x = 0 ∧ r.item.y = 0 ∧ r.didSnap = true) ∧
    (¬ (|newScale - 1| < 5/100 ∧ |newScale - 1| ≤ |newScale - contain|) →
      |newScale - contain| < 5/100 →
      r.item.scale = contain ∧ r.item.x = 0 ∧ r.item.y = 0 ∧
        r.didSnap = true) ∧
    (¬ (|newScale - 1| < 5/100 ∧ |newScale - 1| ≤ |newScale - contain|) →
      ¬ |newScale - contain| < 5/100 →
      r.item.scale = newScale ∧ r.item.x = item.x ∧ r.item.y = item.y ∧
        r.didSnap = false) := by
  have hc : zoomContain imgAspect item.ratio
      = containScale imgAspect (slotAspectOf imgAspect item.ratio) :=
    zoomContain_eq imgAspect (ne_of_gt hA) item.ratio
  simp only [applyZoom, hc]
  by_cases h1 : |min (max (1/100) (item.scale + delta)) 5 - 1| < 5/100 ∧
      |min (max (1/100) (item.scale + delta)) 5 - 1|
        ≤ |min (max (1/100) (item.scale + delta)) 5
            - containScale imgAspect (slotAspectOf imgAspect item.ratio)|
  · rw [if_pos h1]
    exact ⟨fun _ => ⟨rfl, rfl, rfl, rfl⟩, fun hn _ => absurd h1 hn,
      fun hn _ => absurd h1 hn⟩
  · rw [if_neg h1]
    by_cases h2 : |min (max (1/100) (item.scale + delta)) 5
        - containScale imgAspect (slotAspectOf imgAspect item.ratio)| < 5/100
    · rw [if_pos h2]
      exact ⟨fun hcon => absurd hcon h1, fun _ _ => ⟨rfl, rfl, rfl, rfl⟩,
        fun _ hn => absurd h2 hn⟩
    · rw [if_neg h2]
      exact ⟨fun hcon => absurd hcon h1, fun _ hcon => absurd hcon h2,
        fun _ _ => ⟨rfl, rfl, rfl, rfl⟩⟩

/-- C7 witness: the snap-assist property at the concrete input
`imgAspect = 1`, an `original`-ratio item with `scale = 1/2, x = 3, y = 4`,
`delta = 0`. -/
theorem applyZoom_spec_witness :
    (0 : ℚ) < 1 ∧
    (let newScale :=
        min (max (1/100) ((⟨"a", "u", .original, 1/2, 3, 4⟩ : StitchItem).scale
          + 0)) 5
     let contain := containScale 1
        (slotAspectOf 1 (⟨"a", "u", .original, 1/2, 3, 4⟩ : StitchItem).ratio)
     let r := applyZoom 1 ⟨"a", "u", .original, 1/2, 3, 4⟩ 0 0 0
     (|newScale - 1| < 5/100 ∧ |newScale - 1| ≤ |newScale - contain| →
       r.item.scale = 1 ∧ r.item.x = 0 ∧ r.item.y = 0 ∧ r.didSnap = true) ∧
     (¬ (|newScale - 1| < 5/100 ∧ |newScale - 1| ≤ |newScale - contain|) →
       |newScale - contain| < 5/100 →
       r.item.scale = contain ∧ r.item.x = 0 ∧ r.item.y = 0 ∧
         r.didSnap = true) ∧
     (¬ (|newScale - 1| < 5/100 ∧ |newScale - 1| ≤ |newScale - contain|) →
       ¬ |newScale - contain| < 5/100 →
       r.item.scale = newScale ∧
         r.item.x = (⟨"a", "u", .original, 1/2, 3, 4⟩ : StitchItem).x ∧
         r.item.y = (⟨"a", "u", .original, 1/2, 3, 4⟩ : StitchItem).y ∧
         r.didSnap = false)) :=
  ⟨by norm_num, applyZoom_spec 1 (by norm_num) ⟨"a", "u", .original, 1/2, 3, 4⟩ 0 0 0⟩

/-- The snap assist's slot aspect is positive for a positive image aspect. -/
theorem slotAspectOf_pos (imgAspect : ℚ) (hA : 0 < imgAspect)
    (ratio : AspectRatio) : 0 < slotAspectOf imgAspect ratio := by
  cases ratio
  case original => simpa [slotAspectOf] using hA
  all_goals
    simp only [slotAspectOf, ratioWH]
    rw [if_neg (by decide)]
    norm_num

/-- A `1:1` stitch item's slot aspect is 1. -/
theorem slotAspectOf_r1x1 (a : ℚ) : slotAspectOf a .r1x1 = 1 := by
  simp only [slotAspectOf, ratioWH]
  rw [if_neg (by decide)]
  norm_num

/-- The contain snap target is positive for positive aspects. -/
theorem containScale_pos (a s : ℚ) (ha : 0 < a) (hs : 0 < s) :
    0 < containScale a s := by
  unfold containScale
  split_ifs with h
  · exact div_pos hs ha
  · exact div_pos ha hs

/-- The contain snap target never exceeds the cover baseline 1. -/
theorem containScale_le_one (a s : ℚ) (ha : 0 < a) (hs : 0 < s) :
    containScale a s ≤ 1 := by
  unfold containScale
  split_ifs with h
  · exact le_of_lt ((div_lt_one ha).mpr h)
  · exact (div_le_one hs).mpr (not_lt.mp h)

/-- C8: once an item's scale sits at the cover value or at the contain
value with a centered pan, any number of zero-delta snap-assist steps
leaves the item unchanged and emits no feedback pulse, at every clock and
debounce timestamp. -/
theorem applyZoom_snap_idempotent (imgAspect : ℚ) (item : StitchItem)
    (hA : 0 < imgAspect)
    (hscale : item.scale = 1 ∨
      item.scale = containScale imgAspect (slotAspectOf imgAspect item.ratio))
    (hx : item.x = 0) (hy : item.y = 0) :
    (∀ now lastVibrateTime : ℚ,
      (applyZoom imgAspect item 0 now lastVibrateTime).item = item ∧
      (applyZoom imgAspect item 0 now lastVibrateTime).vibrated = false) ∧
    (∀ (now lastVibrateTime : ℚ) (n : ℕ),
      (fun i => (applyZoom imgAspect i 0 now lastVibrateTime).item)^[n] item
        = item) := by
  have hS : 0 < slotAspectOf imgAspect item.ratio :=
    slotAspectOf_pos imgAspect hA item.ratio
  set c := containScale imgAspect (slotAspectOf imgAspect item.ratio) with hc0
  have hcpos : 0 < c := containScale_pos _ _ hA hS
  have hcle : c ≤ 1 := containScale_le_one _ _ hA hS
  have hcz : zoomContain imgAspect item.ratio = c :=
    zoomContain_eq imgAspect (ne_of_gt hA) item.ratio
  have key : ∀ now last : ℚ,
      applyZoom imgAspect item 0 now last = ⟨item, true, false⟩ := by
    intro now last
    rcases hscale with hs | hs
    · simp only [applyZoom, hcz, hs, add_zero]
      rw [show min (max (1/100 : ℚ) 1) 5 = 1 by norm_num]
      rw [if_pos (⟨by norm_num, by simp⟩ :
        |(1 : ℚ) - 1| < 5/100 ∧ |(1 : ℚ) - 1| ≤ |(1 : ℚ) - c|)]
      simp only [ZoomResult.mk.injEq]
      refine ⟨?_, trivial, ?_⟩
      · cases item
        simp_all
      · norm_num
    · simp only [applyZoom, hcz, hs, add_zero]
      rcases le_or_lt (1/100 : ℚ) c with hge | hlt
      · rw [show min (max (1/100 : ℚ) c) 5 = c by
          rw [max_eq_right hge, min_eq_left (le_trans hcle (by norm_num))]]
        by_cases hceq : c = 1
        · rw [if_pos (⟨by rw [hceq]; norm_num, by rw [hceq]⟩ :
            |c - 1| < 5/100 ∧ |c - 1| ≤ |c - c|)]
          simp only [ZoomResult.mk.injEq]
          refine ⟨?_, trivial, ?_⟩
          · cases item
            simp_all
          · rw [hceq]
            norm_num
        · have hnc1 : ¬ (|c - 1| < 5/100 ∧ |c - 1| ≤ |c - c|) := by
            rintro ⟨-, habs⟩
            rw [sub_self, abs_zero] at habs
            have h0 : |c - 1| = 0 := le_antisymm habs (abs_nonneg _)
            rw [abs_eq_zero, sub_eq_zero] at h0
            exact hceq h0
          rw [if_neg hnc1,
            if_pos (by rw [sub_self, abs_zero]; norm_num : |c - c| < 5/100)]
          simp only [ZoomResult.mk.injEq]
          refine ⟨?_, trivial, ?_⟩
          · cases item
            simp_all
          · norm_num
      · rw [show min (max (1/100 : ℚ) c) 5 = 1/100 by
          rw [max_eq_left (le_of_lt hlt)]; norm_num]
        have hd1 : ¬ (|(1/100 : ℚ) - 1| < 5/100 ∧
            |(1/100 : ℚ) - 1| ≤ |(1/100 : ℚ) - c|) := by
          rintro ⟨h1, -⟩
          rw [abs_of_neg (by norm_num : (1/100 : ℚ) - 1 < 0)] at h1
          norm_num at h1
        have hd2 : |(1/100 : ℚ) - c| < 5/100 := by
          rw [abs_of_pos (by linarith)]
          linarith
        rw [if_neg hd1, if_pos hd2]
        simp only [ZoomResult.mk.injEq]
        refine ⟨?_, trivial, ?_⟩
        · cases item
          simp_all
        · norm_num
  constructor
  · intro now last
    rw [key now last]
    exact ⟨rfl, rfl⟩
  · intro now last n
    exact Function.iterate_fixed (by simpa using congrArg ZoomResult.item (key now last)) n

/-- C8 witness: idempotence at the concrete input `imgAspect = 2`, a
`1:1`-ratio item snapped at `contain = 1/2` with centered pan. -/
theorem applyZoom_snap_idempotent_witness :
    (0 : ℚ) < 2 ∧
    ((⟨"a", "u", .r1x1, 1/2, 0, 0⟩ : StitchItem).scale = 1 ∨
      (⟨"a", "u", .r1x1, 1/2, 0, 0⟩ : StitchItem).scale
        = containScale 2
            (slotAspectOf 2 (⟨"a", "u", .r1x1, 1/2, 0, 0⟩ : StitchItem).ratio)) ∧
    (⟨"a", "u", .r1x1, 1/2, 0, 0⟩ : StitchItem).x = 0 ∧
    (⟨"a", "u", .r1x1, 1/2, 0, 0⟩ : StitchItem).y = 0 ∧
    ((∀ now lastVibrateTime : ℚ,
      (applyZoom 2 ⟨"a", "u", .r1x1, 1/2, 0, 0⟩ 0 now lastVibrateTime).item
        = ⟨"a", "u", .r1x1, 1/2, 0, 0⟩ ∧
      (applyZoom 2 ⟨"a", "u", .r1x1, 1/2, 0, 0⟩ 0 now lastVibrateTime).vibrated
        = false) ∧
    (∀ (now lastVibrateTime : ℚ) (n : ℕ),
      (fun i => (applyZoom 2 i 0 now lastVibrateTime).item)^[n]
          (⟨"a", "u", .r1x1, 1/2, 0, 0⟩ : StitchItem)
        = ⟨"a", "u", .r1x1, 1/2, 0, 0⟩)) :=
  ⟨by norm_num,
    Or.inr (by
      show (1/2 : ℚ) = containScale 2 (slotAspectOf 2 .r1x1)
      rw [slotAspectOf_r1x1]
      simp only [containScale]
      rw [if_pos (by norm_num : (2 : ℚ) > 1)]),
    rfl, rfl,
    applyZoom_snap_idempotent 2 ⟨"a", "u", .r1x1, 1/2, 0, 0⟩ (by norm_num)
      (Or.inr (by
        show (1/2 : ℚ) = containScale 2 (slotAspectOf 2 .r1x1)
        rw [slotAspectOf_r1x1]
        simp only [containScale]
        rw [if_pos (by norm_num : (2 : ℚ) > 1)]))
      rfl rfl⟩

/-- The stitch compositor transform only reads an item through the
coercions `scale || 1`, `x || 0`, `y || 0`. -/
theorem stitchItemCtx_congr (centerX centerY drawW drawH : ℚ)
    (a b : StitchItem) (hs : jsOr a.scale 1 = jsOr b.scale 1)
    (hx : a.x = b.x) (hy : a.y = b.y) :
    stitchItemCtx centerX centerY a drawW drawH
      = stitchItemCtx centerX centerY b drawW drawH := by
  simp only [stitchItemCtx, hs, hx, hy]

/-- Loading depends only on the items' URLs. -/
theorem loadAllOf_rel (load : String → Option Img) :
    ∀ l₁ l₂ : List StitchItem,
      List.Forall₂ (fun a b : StitchItem => a.url = b.url) l₁ l₂ →
      loadAllOf load l₁ = loadAllOf load l₂ := by
  intro l₁ l₂ h
  induction h with
  | nil => rfl
  | cons hab htail ih => simp only [loadAllOf, hab, ih]

/-- Zipping two pointwise-related item lists with the same image list
yields pointwise-related pairs. -/
theorem zip_rel {R : StitchItem → StitchItem → Prop} :
    ∀ l₁ l₂ : List StitchItem, List.Forall₂ R l₁ l₂ →
      ∀ imgs : List Img,
        List.Forall₂ (fun p q : StitchItem × Img => R p.1 q.1 ∧ p.2 = q.2)
          (l₁.zip imgs) (l₂.zip imgs) := by
  intro l₁ l₂ h
  induction h with
  | nil => intro imgs; exact List.Forall₂.nil
  | cons hab htail ih =>
    intro imgs
    cases imgs with
    | nil => exact List.Forall₂.nil
    | cons g gs => exact List.Forall₂.cons ⟨hab, rfl⟩ (ih gs)

/-- `drawData` built from pairs that agree on ratio, image and the draw
coercions agrees on everything but the stored item, which still agrees on
the draw coercions. -/
theorem drawDataOf_rel (cfg : StitchConfig) (contentWidth : ℚ) :
    ∀ l₁ l₂ : List (StitchItem × Img),
      List.Forall₂
        (fun p q : StitchItem × Img =>
          (p.1.url = q.1.url ∧ p.1.ratio = q.1.ratio ∧
            jsOr p.1.scale 1 = jsOr q.1.scale 1 ∧
            p.1.x = q.1.x ∧ p.1.y = q.1.y) ∧ p.2 = q.2) l₁ l₂ →
      List.Forall₂
        (fun d e : DrawDatum =>
          d.img = e.img ∧ d.slotHeight = e.slotHeight ∧
            d.spacing = e.spacing ∧
            jsOr d.item.scale 1 = jsOr e.item.scale 1 ∧
            d.item.x = e.item.x ∧ d.item.y = e.item.y)
        (drawDataOf cfg contentWidth l₁) (drawDataOf cfg contentWidth l₂) := by
  intro l₁ l₂ h
  induction h with
  | nil => exact List.Forall₂.nil
  | cons hpq htail ih =>
    rename_i p q l₁t l₂t
    obtain ⟨⟨_, hratio, hscale, hx, hy⟩, himg⟩ := hpq
    obtain ⟨i₁, g₁⟩ := p
    obtain ⟨i₂, g₂⟩ := q
    have hemp : l₁t.isEmpty = l₂t.isEmpty := by cases htail <;> rfl
    exact List.Forall₂.cons
      ⟨himg, by simp only at hratio himg; rw [hratio, himg], by rw [hemp],
        hscale, hx, hy⟩ ih

/-- The total layout height only reads a datum's slot height and spacing. -/
theorem totalHeightOf_rel (cfg : StitchConfig) :
    ∀ dd₁ dd₂ : List DrawDatum,
      List.Forall₂
        (fun d e : DrawDatum =>
          d.img = e.img ∧ d.slotHeight = e.slotHeight ∧
            d.spacing = e.spacing ∧
            jsOr d.item.scale 1 = jsOr e.item.scale 1 ∧
            d.item.x = e.item.x ∧ d.item.y = e.item.y) dd₁ dd₂ →
      totalHeightOf cfg dd₁ = totalHeightOf cfg dd₂ := by
  have hcontent : ∀ dd₁ dd₂ : List DrawDatum,
      List.Forall₂
        (fun d e : DrawDatum =>
          d.img = e.img ∧ d.slotHeight = e.slotHeight ∧
            d.spacing = e.spacing ∧
            jsOr d.item.scale 1 = jsOr e.item.scale 1 ∧
            d.item.x = e.item.x ∧ d.item.y = e.item.y) dd₁ dd₂ →
      totalContentHeightOf dd₁ = totalContentHeightOf dd₂ := by
    intro dd₁ dd₂ h
    induction h with
    | nil => rfl
    | cons hde htail ih =>
      simp only [totalContentHeightOf, List.map_cons, List.sum_cons] at ih ⊢
      rw [hde.2.1, hde.2.2.1, ih]
  have hfinal : ∀ dd₁ dd₂ : List DrawDatum,
      List.Forall₂
        (fun d e : DrawDatum =>
          d.img = e.img ∧ d.slotHeight = e.slotHeight ∧
            d.spacing = e.spacing ∧
            jsOr d.item.scale 1 = jsOr e.item.scale 1 ∧
            d.item.x = e.item.x ∧ d.item.y = e.item.y) dd₁ dd₂ →
      finalSpacingOf dd₁ = finalSpacingOf dd₂ := by
    intro dd₁ dd₂ h
    induction h with
    | nil => rfl
    | cons hde htail ih =>
      rename_i d e dd₁t dd₂t
      cases htail with
      | nil => simp [finalSpacingOf, hde.2.2.1]
      | cons hde2 htail2 =>
        rename_i d2 e2 tl₁ tl₂
        rw [finalSpacingOf_cons d (d2 :: tl₁) (by simp),
          finalSpacingOf_cons e (e2 :: tl₂) (by simp)]
        exact ih
  intro dd₁ dd₂ h
  rw [totalHeightOf, totalHeightOf, hcontent dd₁ dd₂ h, hfinal dd₁ dd₂ h]

/-- The draw loop only reads a datum's image, slot height, spacing and the
stored item's draw coercions. -/
theorem drawCmdsOf_rel (cfg : StitchConfig) (contentWidth : ℚ) :
    ∀ dd₁ dd₂ : List DrawDatum,
      List.Forall₂
        (fun d e : DrawDatum =>
          d.img = e.img ∧ d.slotHeight = e.slotHeight ∧
            d.spacing = e.spacing ∧
            jsOr d.item.scale 1 = jsOr e.item.scale 1 ∧
            d.item.x = e.item.x ∧ d.item.y = e.item.y) dd₁ dd₂ →
      ∀ y : ℚ, drawCmdsOf cfg contentWidth y dd₁
        = drawCmdsOf cfg contentWidth y dd₂ := by
  intro dd₁ dd₂ h
  induction h with
  | nil => intro y; rfl
  | cons hde htail ih =>
    intro y
    obtain ⟨himg, hslot, hspc, hscale, hx, hy⟩ := hde
    simp only [drawCmdsOf, himg, hslot, hspc, ih,
      stitchItemCtx_congr _ _ _ _ _ _ hscale hx hy]

/-- The whole stitch pipeline only reads an item through its URL, ratio
and the coerced transform `scale || 1`, `x || 0`, `y || 0`. -/
theorem generateStitchedImage_congr (load : String → Option Img)
    (cfg : StitchConfig) (outputWidth : ℚ) :
    ∀ l₁ l₂ : List StitchItem,
      List.Forall₂
        (fun a b : StitchItem =>
          a.url = b.url ∧ a.ratio = b.ratio ∧
            jsOr a.scale 1 = jsOr b.scale 1 ∧ a.x = b.x ∧ a.y = b.y) l₁ l₂ →
      generateStitchedImage load l₁ cfg outputWidth
        = generateStitchedImage load l₂ cfg outputWidth := by
  intro l₁ l₂ h
  have hload : loadAllOf load l₁ = loadAllOf load l₂ :=
    loadAllOf_rel load l₁ l₂ (List.Forall₂.imp (fun a b hab => hab.1) h)
  simp only [generateStitchedImage]
  rw [hload]
  cases hl : loadAllOf load l₂ with
  | none => rfl
  | some imgs =>
    have hdd := drawDataOf_rel cfg (outputWidth - cfg.outerPadding * 2)
      (l₁.zip imgs) (l₂.zip imgs) (zip_rel l₁ l₂ h imgs)
    exact congrArg some (by
      rw [totalHeightOf_rel cfg _ _ hdd,
        drawCmdsOf_rel cfg (outputWidth - cfg.outerPadding * 2) _ _ hdd
          cfg.outerPadding])

/-- C10: the stitch compositor substitutes 1 for a falsy (zero) scale and
0 for a falsy x or y, so an item with `scale = 0` produces exactly the
same stitched output as the identical item with `scale = 1`, in any
position of any item list. -/
theorem scale_zero_draws_like_one (load : String → Option Img)
    (cfg : StitchConfig) (outputWidth : ℚ) (pre post : List StitchItem)
    (item : StitchItem) :
    jsOr 0 1 = 1 ∧ (∀ v : ℚ, jsOr v 0 = v) ∧
    generateStitchedImage load (pre ++ { item with scale := 0 } :: post)
        cfg outputWidth
      = generateStitchedImage load (pre ++ { item with scale := 1 } :: post)
        cfg outputWidth := by
  refine ⟨by norm_num [jsOr], ?_, ?_⟩
  · intro v
    unfold jsOr
    split_ifs with h
    · exact h.symm
    · rfl
  · apply generateStitchedImage_congr
    have href : ∀ l : List StitchItem,
        List.Forall₂
          (fun a b : StitchItem =>
            a.url = b.url ∧ a.ratio = b.ratio ∧
              jsOr a.scale 1 = jsOr b.scale 1 ∧ a.x = b.x ∧ a.y = b.y) l l :=
      fun l => List.forall₂_same.mpr fun x _ => ⟨rfl, rfl, rfl, rfl, rfl⟩
    exact List.rel_append (href pre)
      (List.Forall₂.cons ⟨rfl, rfl, by norm_num [jsOr], rfl, rfl⟩ (href post))

end SliceStitch
